import Mathlib

/-!
# soft-serve TUI: session controller and hook pane

A shallow embedding of `internal/tui/bubble.go` (the session controller
`Bubble`, its `Update` and `openEditor`) and of `tui/hooks/hooks.go` (the hook
management pane), together with the properties the specification states about
them.

Conventions of the embedding:

* a `tea.Msg` is the inductive `Msg`; a key message is identified by the value
  of `msg.String()`;
* the panes held by the controller (`selection.Bubble`, `repo.Bubble`) live in
  other packages: the development is parametric in the pane type `P`, the type
  `C` of the commands panes return and the pane handler `upd`, which is the
  pane contract `Update(msg) (tea.Model, tea.Cmd)` with an optional command;
* panes are values: the model a handler returns is what a slot stores, and a
  menu entry keeps the pane it was bound to;
* Go `int` values are integers; the one arithmetic step, the focus cycling, is
  wrapped to 64 bits and uses the truncating remainder;
* a Go run-time failure (slice index out of range, method call on a nil
  interface) is the `Except.error` outcome;
* calls that leave the controller (pane handlers, process and stream
  operations of `openEditor`) are recorded, in program order, in a trace.
-/

namespace SoftServe

/-- The payload of `tea.WindowSizeMsg`. -/
structure WindowSizeMsg where
  Width : Int
  Height : Int
deriving DecidableEq

/-- The messages `Update` distinguishes by type; `other` is any further message type. -/
inductive Msg where
  | key (s : String)
  | err (e : String)
  | windowSize (m : WindowSizeMsg)
  | editFile (FilePath : String)
  | selected (Index : Int)
  | active (Index : Int)
  | quitMsg
  | other (tag : Nat)
deriving DecidableEq

/-- Whether a message is a `tea.WindowSizeMsg`. -/
def Msg.isWindowSize : Msg → Bool
  | .windowSize _ => true
  | _ => false

/-- Go run-time failures that the modelled code can raise. -/
inductive Panic where
  | indexOutOfRange
  | nilDereference
deriving DecidableEq

deriving instance DecidableEq for Except

/-- Wrap-around of a Go `int` (64 bits, signed). -/
def wrapInt64 (x : Int) : Int := (x + 2 ^ 63) % 2 ^ 64 - 2 ^ 63

/-- Slice read `xs[i]` with Go's bounds check. -/
def index {α : Type} (xs : List α) (i : Int) : Except Panic α :=
  if 0 ≤ i then
    match xs.get? i.toNat with
    | some x => .ok x
    | none => .error .indexOutOfRange
  else .error .indexOutOfRange

/-- Slice write `xs[i] = x` with Go's bounds check. -/
def assign {α : Type} (xs : List α) (i : Int) (x : α) : Except Panic (List α) :=
  if 0 ≤ i ∧ i.toNat < xs.length then .ok (xs.set i.toNat x) else .error .indexOutOfRange

namespace Tui

/-- The `sessionState` enumeration of `bubble.go`. -/
inductive sessionState where
  | startState
  | errorState
  | loadedState
  | quittingState
  | quitState
deriving DecidableEq

/-- What `ssh.Session.Pty()` reports: the terminal type of the request and whether a pty is active. -/
structure Session where
  ptyTerm : String
  ptyActive : Bool
deriving DecidableEq

/-- The fields of `SessionConfig` read by `NewBubble`. -/
structure SessionConfig where
  Width : Int
  Height : Int
  InitialRepo : String
  Session : Session
deriving DecidableEq

/-- A menu entry with the pane bound to it. -/
structure MenuEntry (P : Type) where
  Name : String
  Note : String
  Repo : String
  bubble : P
deriving DecidableEq

/-- The controller, restricted to the fields `Update` and `openEditor` read or write.
A slot of `boxes` is `none` when the interface value is nil. -/
structure Bubble (P : Type) where
  state : sessionState
  error : String
  width : Int
  height : Int
  initialRepo : String
  repoMenu : List (MenuEntry P)
  boxes : List (Option P)
  activeBox : Int
  session : Session
  lastResize : WindowSizeMsg
deriving DecidableEq

/-- The commands the controller returns. The two closures read the controller when they
are run, so they are kept symbolic and evaluated by `Cmd.yield`. -/
inductive Cmd (C : Type) where
  | quit
  | resendSize
  | resendLastResize
  | pane (c : C)
deriving DecidableEq

/-- The second result of `Update`: nil, one command, or `tea.Batch` of a list. -/
inductive Ret (C : Type) where
  | nil
  | cmd (c : Cmd C)
  | batch (cs : List (Cmd C))
deriving DecidableEq

/-- The commands contained in a result. -/
def Ret.cmds {C : Type} : Ret C → List (Cmd C)
  | .nil => []
  | .cmd c => [c]
  | .batch cs => cs

/-- The message a controller command produces when run against controller `b`;
a pane command is run by the pane package and yields nothing here. -/
def Cmd.yield {P C : Type} (b : Bubble P) : Cmd C → Option Msg
  | .quit => some .quitMsg
  | .resendSize => some (.windowSize ⟨b.width, b.height⟩)
  | .resendLastResize => some (.windowSize b.lastResize)
  | .pane _ => none

/-- Calls leaving the controller, in program order. -/
inductive Action (P : Type) where
  | paneUpdate (slot : Nat) (p : P) (m : Msg)
  | println (s : String)
  | ptyStart (editor : String) (filepath : String) (env : List String)
  | setWinsize (w h : Int)
  | goResize
  | goCopyIn
  | copyOut
  | wait
  | close
deriving DecidableEq

/-- The process environment of `openEditor`: the `EDITOR` variable and whether `pty.Start` fails. -/
structure Host where
  EDITOR : String
  ptyStartFails : Bool
deriving DecidableEq

/-- A computation with its trace of calls and its outcome. -/
structure Run (P α : Type) where
  trace : List (Action P)
  out : Except Panic α

/-- Control after the type switch of `Update`: an early `return`, or falling through
to the forwarding to the active box with the commands gathered so far. -/
inductive Flow (P C : Type) where
  | done (b : Bubble P) (ret : Ret C)
  | next (b : Bubble P) (cmds : List (Cmd C))

/-- `NewBubble` of `bubble.go`. -/
def NewBubble {P : Type} (sCfg : SessionConfig) : Bubble P :=
  { state := .startState
    error := ""
    width := sCfg.Width
    height := sCfg.Height
    initialRepo := sCfg.InitialRepo
    repoMenu := []
    boxes := [none, none]
    activeBox := 0
    session := sCfg.Session
    lastResize := ⟨0, 0⟩ }

/-- `Bubble.openEditor`: the calls it makes and the command it returns. -/
def openEditor {P C : Type} (host : Host) (b : Bubble P) (filepath : String) :
    List (Action P) × Cmd C :=
  let editor := if host.EDITOR = "" then "vim" else host.EDITOR
  let noPty : List (Action P) := if b.session.ptyActive then [] else [.println "no pty"]
  let env := ["TERM=" ++ b.session.ptyTerm]
  let startErr : List (Action P) :=
    if host.ptyStartFails then [.println "10/10 error handling"] else []
  (noPty ++ [.ptyStart editor filepath env] ++ startErr ++
    [.setWinsize b.width b.height, .goResize, .goCopyIn, .copyOut, .wait, .close],
   .resendSize)

/-- The loop `for i, bx := range b.boxes` of the `tea.WindowSizeMsg` case, from slot `i` on. -/
def broadcast {P C : Type} (upd : P → Msg → P × Option C) (msg : Msg) :
    Nat → List (Option P) → Run P (List (Option P) × List (Cmd C))
  | _, [] => ⟨[], .ok ([], [])⟩
  | _, none :: _ => ⟨[], .error .nilDereference⟩
  | i, some p :: rest =>
    let r := upd p msg
    let t := broadcast upd msg (i + 1) rest
    ⟨.paneUpdate i p msg :: t.trace,
      match t.out with
      | .ok (bs, cs) => .ok (some r.1 :: bs, (r.2.toList.map Cmd.pane) ++ cs)
      | .error e => .error e⟩

/-- The type switch of `Bubble.Update` (lines 128 to 165). -/
def dispatch {P C : Type} (upd : P → Msg → P × Option C) (host : Host) (b : Bubble P) :
    Msg → Run P (Flow P C)
  | .key s =>
    if s = "q" ∨ s = "ctrl+c" then ⟨[], .ok (.done b (.cmd .quit))⟩
    else if s = "tab" ∨ s = "shift+tab" then
      ⟨[], .ok (.next { b with activeBox := Int.tmod (wrapInt64 (b.activeBox + 1)) 2 } [])⟩
    else ⟨[], .ok (.next b [])⟩
  | .err e => ⟨[], .ok (.done { b with error := e, state := .errorState } .nil)⟩
  | .windowSize m =>
    let b1 := { b with lastResize := m, width := m.Width, height := m.Height }
    if b1.state = .loadedState then
      let r := broadcast upd (.windowSize m) 0 b1.boxes
      ⟨r.trace,
        match r.out with
        | .ok (bs, cs) => .ok (.next { b1 with boxes := bs } cs)
        | .error e => .error e⟩
    else ⟨[], .ok (.next b1 [])⟩
  | .editFile fp =>
    let r := openEditor host b fp
    ⟨r.1, .ok (.done b (.cmd r.2))⟩
  | .selected i =>
    let b1 := { b with activeBox := 1 }
    match index b1.repoMenu i with
    | .error e => ⟨[], .error e⟩
    | .ok entry =>
      match assign b1.boxes 1 (some entry.bubble) with
      | .error e => ⟨[], .error e⟩
      | .ok bs => ⟨[], .ok (.next { b1 with boxes := bs } [])⟩
  | .active i =>
    match index b.repoMenu i with
    | .error e => ⟨[], .error e⟩
    | .ok entry =>
      match assign b.boxes 1 (some entry.bubble) with
      | .error e => ⟨[], .error e⟩
      | .ok bs => ⟨[], .ok (.next { b with boxes := bs } [.resendLastResize])⟩
  | .quitMsg => ⟨[], .ok (.next b [])⟩
  | .other _ => ⟨[], .ok (.next b [])⟩

/-- The tail of `Bubble.Update` (lines 166 to 173): forward to the active box when loaded. -/
def forwardActive {P C : Type} (upd : P → Msg → P × Option C) (b : Bubble P) (msg : Msg)
    (cmds : List (Cmd C)) : Run P (Bubble P × Ret C) :=
  if b.state = .loadedState then
    match index b.boxes b.activeBox with
    | .error e => ⟨[], .error e⟩
    | .ok none => ⟨[], .error .nilDereference⟩
    | .ok (some p) =>
      let r := upd p msg
      ⟨[.paneUpdate b.activeBox.toNat p msg],
        .ok ({ b with boxes := b.boxes.set b.activeBox.toNat (some r.1) },
             .batch (cmds ++ r.2.toList.map Cmd.pane))⟩
  else ⟨[], .ok (b, .batch cmds)⟩

/-- `Bubble.Update` of `bubble.go`. -/
def Update {P C : Type} (upd : P → Msg → P × Option C) (host : Host) (b : Bubble P)
    (msg : Msg) : Run P (Bubble P × Ret C) :=
  let d := dispatch upd host b msg
  match d.out with
  | .error e => ⟨d.trace, .error e⟩
  | .ok (.done b1 ret) => ⟨d.trace, .ok (b1, ret)⟩
  | .ok (.next b1 cmds) =>
    let f := forwardActive upd b1 msg cmds
    ⟨d.trace ++ f.trace, f.out⟩

/-- The pane handler invocations of a trace, as (slot, occupant, message). -/
def paneCalls {P : Type} : List (Action P) → List (Nat × P × Msg)
  | [] => []
  | .paneUpdate i p m :: rest => (i, p, m) :: paneCalls rest
  | _ :: rest => paneCalls rest

/-- Handling a list of geometry-change events in order, stopping at the first failure. -/
def runGeometry {P C : Type} (upd : P → Msg → P × Option C) (host : Host) :
    Bubble P → List WindowSizeMsg → Except Panic (Bubble P)
  | b, [] => .ok b
  | b, m :: ms =>
    match (Update upd host b (.windowSize m)).out with
    | .error e => .error e
    | .ok (b1, _) => runGeometry upd host b1 ms

/-- The model a pane returns for geometry-change event `m`. -/
def passOnce {P C : Type} (upd : P → Msg → P × Option C) (m : WindowSizeMsg) (p : P) : P :=
  (upd p (.windowSize m)).1

/-- The occupant of slot `i` after geometry-change event `m` when slot `a` is active, in
the words of the amended claim: passed the event once, and a second time when active. -/
def slotAfter {P C : Type} (upd : P → Msg → P × Option C) (a : Int) (i : Nat)
    (m : WindowSizeMsg) (p : P) : P :=
  if a = i then passOnce upd m (passOnce upd m p) else passOnce upd m p

/-- A test double for a pane: its state is the list of messages it has handled,
latest first, and it returns no command. -/
def recUpd : List Msg → Msg → List Msg × Option Nat :=
  fun p m => (m :: p, none)

/-- The shape the set-up code gives a controller: two slots, and in the loaded state a
valid active index and no nil slot. -/
def Ready {P : Type} (b : Bubble P) : Prop :=
  ∃ o0 o1, b.boxes = [o0, o1] ∧
    (b.state = .loadedState →
      (b.activeBox = 0 ∨ b.activeBox = 1) ∧ o0.isSome = true ∧ o1.isSome = true)

/-- A controller as the set-up leaves it after `NewBubble` with an 80x24 terminal: loaded,
menu slot active, one menu entry, recording panes, and no resize handled yet. -/
def loadedStart : Bubble (List Msg) :=
  { (NewBubble ⟨80, 24, "", ⟨"xterm", true⟩⟩ : Bubble (List Msg)) with
    state := .loadedState
    repoMenu := [⟨"home", "", "config", []⟩]
    boxes := [some [], some []] }

/-- The controller `loadedStart` after it has handled the resize to 80x24. -/
def resizedStart : Bubble (List Msg) :=
  { loadedStart with lastResize := ⟨80, 24⟩ }

/-- A host with `EDITOR` unset on which `pty.Start` succeeds. -/
def plainHost : Host := ⟨"", false⟩

end Tui

namespace Hooks

/-- The constant `hooksFolder` of `hooks.go`. -/
def hooksFolder : String := "hooks"

/-- The `hooksState` enumeration of `hooks.go`. -/
inductive hooksState where
  | listState
  | newHookState
deriving DecidableEq

/-- Library operations the hook pane calls, over a text input type `T`, a file system
type `W` and a command type `C`: `filepath.Join`, `os.MkdirAll`, `os.ReadDir` (entry
names, `none` on error), `os.Create` and `os.Chmod` (`none` on error), and the
`textinput.Model` operations. -/
structure Deps (T W C : Type) where
  pathJoin : String → String → String
  mkdirAll : W → String → W
  readDir : W → String → Option (List String)
  create : W → String → Option W
  chmod : W → String → Nat → Option W
  tiNew : T
  tiFocus : T → T
  tiBlink : T → T
  tiValue : T → String
  tiUpdate : T → Msg → T × Option C

/-- The hook pane, without the fields used only for styling. -/
structure Bubble (T : Type) where
  state : hooksState
  width : Int
  height : Int
  path : String
  selection : String
  cursor : Int
  textInput : T
  hooks : List String
deriving DecidableEq

/-- The commands the hook pane returns: `common.EditFile(fp)`, or the (possibly nil)
command of the text input. -/
inductive Cmd (C : Type) where
  | editFile (fp : String)
  | input (c : Option C)
deriving DecidableEq

/-- The second result of the hook pane's `Update`. -/
inductive Ret (C : Type) where
  | nil
  | cmd (c : Cmd C)
  | batch (cs : List (Cmd C))
deriving DecidableEq

/-- The message produced by running `common.EditFile(fp)` (`msg.go`). -/
def EditFile (fp : String) : Msg := .editFile fp

/-- `Bubble.SetSize`. -/
def SetSize {T : Type} (b : Bubble T) (width height : Int) : Bubble T :=
  { b with width := width, height := height }

/-- `Bubble.reset`: rescan the hook directory. -/
def reset {T W C : Type} (d : Deps T W C) (w : W) (b : Bubble T) : Bubble T :=
  match d.readDir w b.path with
  | some names => { b with hooks := names }
  | none => { b with hooks := [] }

/-- `createHook`: the file system afterwards and whether an error is returned. -/
def createHook {T W C : Type} (d : Deps T W C) (w : W) (filename : String) : W × Bool :=
  match d.create w filename with
  | none => (w, true)
  | some w1 =>
    match d.chmod w1 filename 0o777 with
    | none => (w1, true)
    | some w2 => (w2, false)

/-- `NewBubble` of `hooks.go`; `repoPath` is `repo.Path()`. -/
def NewBubble {T W C : Type} (d : Deps T W C) (w : W) (repoPath : String)
    (width height : Int) : Bubble T × W :=
  let path := d.pathJoin repoPath hooksFolder
  let w1 := d.mkdirAll w path
  let b : Bubble T :=
    { state := .listState, width := width, height := height, path := path,
      selection := "", cursor := 0, textInput := d.tiNew, hooks := [] }
  (reset d w1 (SetSize b width height), w1)

/-- The tail of the hook pane's `Update` (lines 108 to 113). -/
def forwardInput {T W C : Type} (d : Deps T W C) (w : W) (b : Bubble T) (msg : Msg) :
    Except Panic (Bubble T × Ret C × W) :=
  if b.state = .newHookState then
    let r := d.tiUpdate b.textInput msg
    .ok ({ b with textInput := r.1 }, .batch [.input r.2], w)
  else .ok (b, .batch [], w)

/-- `Bubble.Update` of `hooks.go`. -/
def Update {T W C : Type} (d : Deps T W C) (w : W) (b : Bubble T) :
    Msg → Except Panic (Bubble T × Ret C × W)
  | .windowSize m => forwardInput d w (SetSize b m.Width m.Height) (.windowSize m)
  | .key s =>
    if s = "j" then
      forwardInput d w
        (if b.cursor < b.hooks.length then { b with cursor := b.cursor + 1 } else b) (.key s)
    else if s = "k" then
      forwardInput d w (if b.cursor > 0 then { b with cursor := b.cursor - 1 } else b) (.key s)
    else if s = "n" then
      .ok ({ b with state := .newHookState, textInput := d.tiBlink (d.tiFocus b.textInput) },
           .nil, w)
    else if s = "enter" then
      match b.state with
      | .listState =>
        match index b.hooks b.cursor with
        | .error e => .error e
        | .ok sel =>
          .ok ({ b with selection := sel }, .cmd (.editFile (d.pathJoin b.path sel)), w)
      | .newHookState =>
        let sel := d.tiValue b.textInput
        let fullpath := d.pathJoin b.path sel
        let w1 := (createHook d w fullpath).1
        let b1 := reset d w1 { b with selection := sel }
        .ok ({ b1 with state := .listState }, .batch [.editFile fullpath], w1)
    else forwardInput d w b (.key s)
  | msg => forwardInput d w b msg

/-- Handling a list of messages in order, stopping at the first failure. -/
def run {T W C : Type} (d : Deps T W C) :
    W → Bubble T → List Msg → Except Panic (Bubble T × W)
  | w, b, [] => .ok (b, w)
  | w, b, m :: ms =>
    match Update d w b m with
    | .error e => .error e
    | .ok (b1, _, w1) => run d w1 b1 ms

/-- Test doubles: the text input records the messages it is given (latest first), its value
is the keys typed so far; the file system is a read-only listing of the hook directory. -/
def recDeps : Deps (List Msg) (List String) Nat :=
  { pathJoin := fun a b => a ++ "/" ++ b
    mkdirAll := fun w _ => w
    readDir := fun w _ => some w
    create := fun _ _ => none
    chmod := fun _ _ _ => none
    tiNew := []
    tiFocus := fun t => t
    tiBlink := fun t => t
    tiValue := fun t =>
      String.join (t.reverse.map (fun m => match m with | .key s => s | _ => ""))
    tiUpdate := fun t m => (m :: t, none) }

/-- The hook pane `NewBubble` builds over a hook directory that holds one hook. -/
def oneHook : Bubble (List Msg) := (NewBubble recDeps ["pre-receive"] "/r" 80 24).1

/-- The hook pane `NewBubble` builds over an empty hook directory. -/
def noHook : Bubble (List Msg) := (NewBubble recDeps [] "/r" 80 24).1

end Hooks

end SoftServe

/-! ## Properties of the session controller -/

namespace SoftServe

theorem index_of_valid {α : Type} (xs : List α) (i : Int) (h0 : 0 ≤ i)
    (h1 : i < xs.length) : ∃ x, index xs i = .ok x := by
  have hlt : i.toNat < xs.length := by omega
  refine ⟨xs.get ⟨i.toNat, hlt⟩, ?_⟩
  simp [index, h0, List.getElem?_eq_getElem hlt]

theorem index_two_zero {α : Type} (a b : α) : index [a, b] 0 = .ok a := by
  simp [index]

theorem index_two_one {α : Type} (a b : α) : index [a, b] 1 = .ok b := by
  simp [index]

theorem assign_two_one {α : Type} (a b x : α) : assign [a, b] 1 x = .ok [a, x] := by
  simp [assign]

namespace Tui

/-- C1: in the loaded state, a selection event carrying a valid menu index `i` is handled
without failure, leaves the active slot index equal to 1, and leaves in the detail slot
the model returned by the `Update` of the pane bound to entry `i`; that pane is the only
one whose handler is invoked. -/
theorem selected_activates_detail {P C : Type} (upd : P → Msg → P × Option C) (host : Host)
    (b : Bubble P) (i : Int) (hl : b.state = .loadedState) (h0 : 0 ≤ i)
    (h1 : i < b.repoMenu.length) (hb : b.boxes.length = 2) :
    ∃ e b1 ret, index b.repoMenu i = .ok e ∧
      (Update upd host b (.selected i)).out = .ok (b1, ret) ∧
      b1.activeBox = 1 ∧
      index b1.boxes 1 = .ok (some (upd e.bubble (.selected i)).1) ∧
      index b1.boxes 0 = index b.boxes 0 ∧
      (Update upd host b (.selected i)).trace = [.paneUpdate 1 e.bubble (.selected i)] := by
  obtain ⟨e, he⟩ := index_of_valid b.repoMenu i h0 h1
  obtain ⟨o0, o1, hbx⟩ := List.length_eq_two.mp hb
  refine ⟨e, { b with activeBox := 1, boxes := [o0, some (upd e.bubble (.selected i)).1] },
    .batch ((upd e.bubble (.selected i)).2.toList.map Cmd.pane), he, ?_⟩
  simp [Update, dispatch, he, assign_two_one, hbx, forwardActive, hl, index_two_one,
    index_two_zero]

theorem selected_activates_detail_witness :
    loadedStart.state = .loadedState ∧ (0 : Int) ≤ 0 ∧
      (0 : Int) < loadedStart.repoMenu.length ∧ loadedStart.boxes.length = 2 ∧
      ∃ e b1 ret, index loadedStart.repoMenu 0 = .ok e ∧
        (Update recUpd plainHost loadedStart (.selected 0)).out = .ok (b1, ret) ∧
        b1.activeBox = 1 ∧
        index b1.boxes 1 = .ok (some (recUpd e.bubble (.selected 0)).1) ∧
        index b1.boxes 0 = index loadedStart.boxes 0 ∧
        (Update recUpd plainHost loadedStart (.selected 0)).trace =
          [.paneUpdate 1 e.bubble (.selected 0)] :=
  ⟨by decide, by decide, by decide, by decide,
    selected_activates_detail recUpd plainHost loadedStart 0 (by decide) (by decide)
      (by decide) (by decide)⟩

/-- C2 fails on the code: on a loaded controller built by `NewBubble` for an 80x24
terminal that has handled no resize yet, previewing entry 0 returns no command yielding
the stored width and height; the one command it returns yields the zero `lastResize`,
and handling that re-issued event overwrites the stored 80x24 with 0x0. -/
theorem preview_resends_zero_resize :
    ∃ b1 ret b2 ret2,
      (Update recUpd plainHost loadedStart (.active 0)).out = .ok (b1, ret) ∧
      (loadedStart.width, loadedStart.height) = (80, 24) ∧
      ret.cmds = [.resendLastResize] ∧
      Cmd.yield b1 (Cmd.resendLastResize : Cmd Nat) = some (.windowSize ⟨0, 0⟩) ∧
      (∀ c ∈ ret.cmds,
        Cmd.yield b1 c ≠ some (.windowSize ⟨loadedStart.width, loadedStart.height⟩)) ∧
      (Update recUpd plainHost b1 (.windowSize ⟨0, 0⟩)).out = .ok (b2, ret2) ∧
      (b2.width, b2.height) = (0, 0) := by
  refine ⟨{ loadedStart with boxes := [some [.active 0], some []] },
    .batch [.resendLastResize],
    { loadedStart with
        width := 0, height := 0
        boxes := [some [.windowSize ⟨0, 0⟩, .windowSize ⟨0, 0⟩, .active 0],
                  some [.windowSize ⟨0, 0⟩]] },
    .batch [], by decide, by decide, by decide, by decide, by decide, by decide, by decide⟩

/-- What a preview event does on a controller as the set-up shapes it: a preview event
carrying a valid menu index `i` is handled without failure, leaves the active slot index, the stored
width, height and `lastResize` unchanged, puts
the pane bound to entry `i` in the detail slot (the model returned by that pane's `Update`
when the controller is loaded with the detail slot active), and returns a command that
yields a geometry-change event carrying `lastResize`, the last geometry-change event
handled; this is the stored width and height whenever `lastResize` agrees with them. -/
theorem preview_swaps_detail {P C : Type} (upd : P → Msg → P × Option C) (host : Host)
    (b : Bubble P) (i : Int) (h0 : 0 ≤ i) (h1 : i < b.repoMenu.length) (hr : Ready b) :
    ∃ e b1 ret, index b.repoMenu i = .ok e ∧
      (Update upd host b (.active i)).out = .ok (b1, ret) ∧
      b1.activeBox = b.activeBox ∧
      index b1.boxes 1 =
        .ok (some (if b.state = .loadedState ∧ b.activeBox = 1
          then (upd e.bubble (.active i)).1 else e.bubble)) ∧
      Cmd.resendLastResize ∈ ret.cmds ∧
      Cmd.yield b1 (Cmd.resendLastResize : Cmd C) = some (.windowSize b.lastResize) ∧
      (b.lastResize = ⟨b.width, b.height⟩ →
        Cmd.yield b1 (Cmd.resendLastResize : Cmd C)
          = some (.windowSize ⟨b.width, b.height⟩)) ∧
      b1.width = b.width ∧ b1.height = b.height ∧ b1.lastResize = b.lastResize := by
  obtain ⟨e, he⟩ := index_of_valid b.repoMenu i h0 h1
  obtain ⟨o0, o1, hbx, hrd⟩ := hr
  by_cases hl : b.state = .loadedState
  · obtain ⟨ha, h0s, -⟩ := hrd hl
    obtain ⟨p0, rfl⟩ := Option.isSome_iff_exists.mp h0s
    rcases ha with ha | ha
    · refine ⟨e, { b with boxes := [some (upd p0 (.active i)).1, some e.bubble] },
        .batch ([.resendLastResize] ++ (upd p0 (.active i)).2.toList.map Cmd.pane), he, ?_⟩
      simp [Update, dispatch, he, assign_two_one, hbx, forwardActive, hl, ha, index_two_one,
        index_two_zero, Ret.cmds, Cmd.yield]
    · refine ⟨e, { b with boxes := [some p0, some (upd e.bubble (.active i)).1] },
        .batch ([.resendLastResize] ++ (upd e.bubble (.active i)).2.toList.map Cmd.pane),
        he, ?_⟩
      simp [Update, dispatch, he, assign_two_one, hbx, forwardActive, hl, ha, index_two_one,
        index_two_zero, Ret.cmds, Cmd.yield]
  · refine ⟨e, { b with boxes := [o0, some e.bubble] }, .batch [.resendLastResize], he, ?_⟩
    simp [Update, dispatch, he, assign_two_one, hbx, forwardActive, hl, index_two_one,
      Ret.cmds, Cmd.yield]

theorem loadedStart_ready : Ready loadedStart :=
  ⟨some [], some [], rfl, fun _ => ⟨Or.inl rfl, rfl, rfl⟩⟩

theorem resizedStart_ready : Ready resizedStart :=
  ⟨some [], some [], rfl, fun _ => ⟨Or.inl rfl, rfl, rfl⟩⟩

theorem preview_swaps_detail_on_resized :
    (0 : Int) ≤ 0 ∧ (0 : Int) < resizedStart.repoMenu.length ∧ Ready resizedStart ∧
      ∃ e b1 ret, index resizedStart.repoMenu 0 = .ok e ∧
        (Update recUpd plainHost resizedStart (.active 0)).out = .ok (b1, ret) ∧
        b1.activeBox = resizedStart.activeBox ∧
        index b1.boxes 1 =
          .ok (some (if resizedStart.state = .loadedState ∧ resizedStart.activeBox = 1
            then (recUpd e.bubble (.active 0)).1 else e.bubble)) ∧
        Cmd.resendLastResize ∈ ret.cmds ∧
        Cmd.yield b1 (Cmd.resendLastResize : Cmd Nat)
          = some (.windowSize resizedStart.lastResize) ∧
        (resizedStart.lastResize = ⟨resizedStart.width, resizedStart.height⟩ →
          Cmd.yield b1 (Cmd.resendLastResize : Cmd Nat)
            = some (.windowSize ⟨resizedStart.width, resizedStart.height⟩)) ∧
        b1.width = resizedStart.width ∧ b1.height = resizedStart.height ∧
        b1.lastResize = resizedStart.lastResize :=
  ⟨by decide, by decide, resizedStart_ready,
    preview_swaps_detail recUpd plainHost resizedStart 0 (by decide) (by decide)
      resizedStart_ready⟩

/-- Handling a geometry-change event makes `lastResize` agree with the stored width and
height, and no other event changes any of the three; so they agree from the first
geometry-change event on. -/
theorem lastResize_agrees {P C : Type} (upd : P → Msg → P × Option C) (host : Host)
    (b b1 : Bubble P) (msg : Msg) (ret : Ret C)
    (h : (Update upd host b msg).out = .ok (b1, ret))
    (hpre : msg.isWindowSize = true ∨ b.lastResize = ⟨b.width, b.height⟩) :
    b1.lastResize = ⟨b1.width, b1.height⟩ := by
  have hfwd : ∀ (c : Bubble P) (cmds : List (Cmd C)),
      (forwardActive upd c msg cmds).out = .ok (b1, ret) →
      b1.lastResize = c.lastResize ∧ b1.width = c.width ∧ b1.height = c.height := by
    intro c cmds hc
    unfold forwardActive at hc
    split at hc
    · split at hc
      · simp at hc
      · simp at hc
      · simp at hc
        rw [← hc.1]
        exact ⟨rfl, rfl, rfl⟩
    · simp at hc
      rw [← hc.1]
      exact ⟨rfl, rfl, rfl⟩
  have hdisp : ∀ (c : Bubble P) (ret0 : Ret C),
      (dispatch upd host b msg).out = .ok (.done c ret0) →
      c.lastResize = b.lastResize ∧ c.width = b.width ∧ c.height = b.height ∧
        msg.isWindowSize = false := by
    intro c ret0 hc
    cases msg with
    | key s =>
      simp only [dispatch] at hc
      split at hc
      · simp at hc; rw [← hc.1]; exact ⟨rfl, rfl, rfl, rfl⟩
      · split at hc <;> simp at hc
    | err e => simp [dispatch] at hc; rw [← hc.1]; exact ⟨rfl, rfl, rfl, rfl⟩
    | windowSize m =>
      simp only [dispatch] at hc
      split at hc
      · split at hc <;> simp at hc
      · simp at hc
    | editFile fp => simp [dispatch] at hc; rw [← hc.1]; exact ⟨rfl, rfl, rfl, rfl⟩
    | selected i =>
      simp only [dispatch] at hc
      split at hc
      · simp at hc
      · split at hc <;> simp at hc
    | active i =>
      simp only [dispatch] at hc
      split at hc
      · simp at hc
      · split at hc <;> simp at hc
    | quitMsg => simp [dispatch] at hc
    | other t => simp [dispatch] at hc
  have hnext : ∀ (c : Bubble P) (cmds : List (Cmd C)),
      (dispatch upd host b msg).out = .ok (.next c cmds) →
      (msg.isWindowSize = true → c.lastResize = ⟨c.width, c.height⟩) ∧
      (msg.isWindowSize = false →
        c.lastResize = b.lastResize ∧ c.width = b.width ∧ c.height = b.height) := by
    intro c cmds hc
    cases msg with
    | key s =>
      simp only [dispatch] at hc
      split at hc
      · simp at hc
      · split at hc <;> (simp at hc; rw [← hc.1]; simp [Msg.isWindowSize])
    | err e => simp [dispatch] at hc
    | windowSize m =>
      simp only [dispatch] at hc
      split at hc
      · split at hc
        · simp at hc; rw [← hc.1]; simp [Msg.isWindowSize]
        · simp at hc
      · simp at hc; rw [← hc.1]; simp [Msg.isWindowSize]
    | editFile fp => simp [dispatch] at hc
    | selected i =>
      simp only [dispatch] at hc
      split at hc
      · simp at hc
      · split at hc
        · simp at hc
        · simp at hc; rw [← hc.1]; simp [Msg.isWindowSize]
    | active i =>
      simp only [dispatch] at hc
      split at hc
      · simp at hc
      · split at hc
        · simp at hc
        · simp at hc; rw [← hc.1]; simp [Msg.isWindowSize]
    | quitMsg => simp [dispatch] at hc; rw [← hc.1]; simp [Msg.isWindowSize]
    | other t => simp [dispatch] at hc; rw [← hc.1]; simp [Msg.isWindowSize]
  have hnw : msg.isWindowSize = false → b.lastResize = ⟨b.width, b.height⟩ := by
    intro hf
    rcases hpre with hp | hp
    · rw [hf] at hp; cases hp
    · exact hp
  cases hout : (dispatch upd host b msg).out with
  | error e => simp [Update, hout] at h
  | ok fl =>
    cases fl with
    | done c ret0 =>
      simp [Update, hout] at h
      obtain ⟨e1, e2, e3, hf⟩ := hdisp c ret0 hout
      rw [← h.1, e1, e2, e3]
      exact hnw hf
    | next c cmds =>
      simp only [Update, hout] at h
      obtain ⟨f1, f2, f3⟩ := hfwd c cmds h
      obtain ⟨n1, n2⟩ := hnext c cmds hout
      rw [f1, f2, f3]
      cases hw : msg.isWindowSize with
      | true => exact n1 hw
      | false =>
        obtain ⟨g1, g2, g3⟩ := n2 hw
        rw [g1, g2, g3]
        exact hnw hw

/-- C5 as stated fails: a loaded controller handling the quit key "q" is still in the
loaded state afterwards, neither `quittingState` nor `quitState`. -/
theorem quit_key_counterexample :
    ∃ b1 ret, (Update recUpd plainHost loadedStart (.key "q")).out = .ok (b1, ret) ∧
      b1.state = .loadedState ∧
      ¬ (b1.state = .quittingState ∨ b1.state = .quitState) := by
  refine ⟨loadedStart, .cmd .quit, by decide, by decide, by decide⟩

/-- C5 amended: in every controller state, handling a quit key ("q" or "ctrl+c") returns
the controller unchanged, its session state included, together with the `tea.Quit`
command, whose message is the quit message; no pane handler is invoked. -/
theorem quit_key_requests_quit {P C : Type} (upd : P → Msg → P × Option C) (host : Host)
    (b : Bubble P) :
    Update upd host b (.key "q") = ⟨[], .ok (b, .cmd .quit)⟩ ∧
      Update upd host b (.key "ctrl+c") = ⟨[], .ok (b, .cmd .quit)⟩ ∧
      Cmd.yield b (Cmd.quit : Cmd C) = some .quitMsg := by
  simp [Update, dispatch, Cmd.yield]

/-- One geometry-change event on a loaded controller with both slots occupied. -/
theorem windowSize_step {P C : Type} (upd : P → Msg → P × Option C) (host : Host)
    (b : Bubble P) (m : WindowSizeMsg) (p0 p1 : P) (hl : b.state = .loadedState)
    (hbx : b.boxes = [some p0, some p1]) (ha : b.activeBox = 0 ∨ b.activeBox = 1) :
    ∃ ret, Update upd host b (.windowSize m) =
      ⟨[.paneUpdate 0 p0 (.windowSize m), .paneUpdate 1 p1 (.windowSize m),
        .paneUpdate b.activeBox.toNat
          (if b.activeBox = 0 then passOnce upd m p0 else passOnce upd m p1) (.windowSize m)],
       .ok ({ b with
                lastResize := m, width := m.Width, height := m.Height
                boxes := [some (slotAfter upd b.activeBox 0 m p0),
                          some (slotAfter upd b.activeBox 1 m p1)] }, ret)⟩ := by
  rcases ha with ha | ha
  · refine ⟨.batch (((upd p0 (.windowSize m)).2.toList.map Cmd.pane ++
        (upd p1 (.windowSize m)).2.toList.map Cmd.pane) ++
        (upd (upd p0 (.windowSize m)).1 (.windowSize m)).2.toList.map Cmd.pane), ?_⟩
    simp [Update, dispatch, broadcast, forwardActive, hl, hbx, ha, index_two_zero,
      slotAfter, passOnce]
  · refine ⟨.batch (((upd p0 (.windowSize m)).2.toList.map Cmd.pane ++
        (upd p1 (.windowSize m)).2.toList.map Cmd.pane) ++
        (upd (upd p1 (.windowSize m)).1 (.windowSize m)).2.toList.map Cmd.pane), ?_⟩
    simp [Update, dispatch, broadcast, forwardActive, hl, hbx, ha, index_two_one,
      slotAfter, passOnce]

/-- A sequence of geometry-change events on a loaded controller with both slots occupied
is handled without failure and keeps the controller loaded with the same active slot. -/
theorem runGeometry_loaded {P C : Type} (upd : P → Msg → P × Option C) (host : Host)
    (evs : List WindowSizeMsg) :
    ∀ (b : Bubble P) (p0 p1 : P), b.state = .loadedState → b.boxes = [some p0, some p1] →
      (b.activeBox = 0 ∨ b.activeBox = 1) →
      ∃ bm, runGeometry upd host b evs = .ok bm ∧ bm.state = .loadedState ∧
        bm.activeBox = b.activeBox ∧
        bm.boxes = [some (evs.foldl (fun p ev => slotAfter upd b.activeBox 0 ev p) p0),
                    some (evs.foldl (fun p ev => slotAfter upd b.activeBox 1 ev p) p1)] := by
  induction evs with
  | nil => intro b p0 p1 hl hbx _; exact ⟨b, rfl, hl, rfl, hbx⟩
  | cons ev evs ih =>
    intro b p0 p1 hl hbx ha
    obtain ⟨ret, hstep⟩ := windowSize_step upd host b ev p0 p1 hl hbx ha
    obtain ⟨bm, hrun, hst, hab, hboxes⟩ :=
      ih { b with
            lastResize := ev, width := ev.Width, height := ev.Height
            boxes := [some (slotAfter upd b.activeBox 0 ev p0),
                      some (slotAfter upd b.activeBox 1 ev p1)] }
        _ _ hl rfl ha
    exact ⟨bm, by simp [runGeometry, hstep, hrun], hst, hab, by simpa using hboxes⟩

/-- C3 as stated fails: on a loaded controller with the menu slot active, after one
geometry-change event the active slot does not hold the model its occupant's `Update`
returned for the event; its occupant has been passed the event twice. -/
theorem geometry_active_slot_counterexample :
    ∃ b1 ret,
      (Update recUpd plainHost loadedStart (.windowSize ⟨100, 40⟩)).out = .ok (b1, ret) ∧
      index loadedStart.boxes 0 = .ok (some []) ∧
      index b1.boxes 0 = .ok (some [.windowSize ⟨100, 40⟩, .windowSize ⟨100, 40⟩]) ∧
      index b1.boxes 0 ≠ .ok (some (recUpd [] (.windowSize ⟨100, 40⟩)).1) := by
  refine ⟨{ loadedStart with
              lastResize := ⟨100, 40⟩, width := 100, height := 40
              boxes := [some [.windowSize ⟨100, 40⟩, .windowSize ⟨100, 40⟩],
                        some [.windowSize ⟨100, 40⟩]] },
    .batch [], by decide, by decide, by decide, by decide⟩

/-- C3 amended: on a loaded controller with both slots occupied and a valid active
index, every sequence `evs` of geometry-change events is handled without failure, and
the event `ev` that follows it is handled so that the stored width, height and
`lastResize` equal the values of `ev`, the occupant of each slot is passed `ev` through
its own `Update`, the non-active slot holds the model that `Update` returned, and the
occupant of the active slot is passed `ev` a second time by the forwarding to the active
box, the active slot holding the model returned by that second `Update`. -/
theorem geometry_reaches_every_slot {P C : Type} (upd : P → Msg → P × Option C)
    (host : Host) (b : Bubble P) (p0 p1 : P) (evs : List WindowSizeMsg) (ev : WindowSizeMsg)
    (hl : b.state = .loadedState) (hbx : b.boxes = [some p0, some p1])
    (ha : b.activeBox = 0 ∨ b.activeBox = 1) :
    ∃ bm q0 q1 b1 ret,
      runGeometry upd host b evs = .ok bm ∧ bm.boxes = [some q0, some q1] ∧
      Update upd host bm (.windowSize ev) =
        ⟨[.paneUpdate 0 q0 (.windowSize ev), .paneUpdate 1 q1 (.windowSize ev),
          .paneUpdate b.activeBox.toNat
            (if b.activeBox = 0 then passOnce upd ev q0 else passOnce upd ev q1)
            (.windowSize ev)],
         .ok (b1, ret)⟩ ∧
      b1.width = ev.Width ∧ b1.height = ev.Height ∧ b1.lastResize = ev ∧
      b1.state = .loadedState ∧ b1.activeBox = b.activeBox ∧
      b1.boxes = [some (slotAfter upd b.activeBox 0 ev q0),
                  some (slotAfter upd b.activeBox 1 ev q1)] ∧
      runGeometry upd host b (evs ++ [ev]) = .ok b1 := by
  obtain ⟨bm, hrun, hst, hab, hboxes⟩ := runGeometry_loaded upd host evs b p0 p1 hl hbx ha
  obtain ⟨ret, hstep⟩ := windowSize_step upd host bm ev _ _ hst hboxes (hab ▸ ha)
  rw [hab] at hstep
  refine ⟨bm, _, _, _, ret, hrun, hboxes, hstep, rfl, rfl, rfl, hst, rfl, rfl, ?_⟩
  have happ : ∀ (l : List WindowSizeMsg) (c cm : Bubble P),
      runGeometry upd host c l = .ok cm →
      runGeometry upd host c (l ++ [ev]) = runGeometry upd host cm [ev] := by
    intro l
    induction l with
    | nil => intro c cm h; simp [runGeometry] at h; subst h; rfl
    | cons x xs ih =>
      intro c cm h
      simp only [runGeometry, List.cons_append] at h ⊢
      cases hx : (Update upd host c (.windowSize x)).out with
      | error e => simp [hx] at h
      | ok v => simp only [hx] at h ⊢; exact ih _ _ h
  rw [happ evs b bm hrun]
  simp [runGeometry, hstep]

theorem geometry_reaches_every_slot_witness :
    loadedStart.state = .loadedState ∧ loadedStart.boxes = [some [], some []] ∧
      (loadedStart.activeBox = 0 ∨ loadedStart.activeBox = 1) ∧
      ∃ bm q0 q1 b1 ret,
        runGeometry recUpd plainHost loadedStart [⟨90, 30⟩] = .ok bm ∧
        bm.boxes = [some q0, some q1] ∧
        Update recUpd plainHost bm (.windowSize ⟨100, 40⟩) =
          ⟨[.paneUpdate 0 q0 (.windowSize ⟨100, 40⟩), .paneUpdate 1 q1 (.windowSize ⟨100, 40⟩),
            .paneUpdate loadedStart.activeBox.toNat
              (if loadedStart.activeBox = 0 then passOnce recUpd ⟨100, 40⟩ q0
                else passOnce recUpd ⟨100, 40⟩ q1)
              (.windowSize ⟨100, 40⟩)],
           .ok (b1, ret)⟩ ∧
        b1.width = (⟨100, 40⟩ : WindowSizeMsg).Width ∧
        b1.height = (⟨100, 40⟩ : WindowSizeMsg).Height ∧
        b1.lastResize = ⟨100, 40⟩ ∧
        b1.state = .loadedState ∧ b1.activeBox = loadedStart.activeBox ∧
        b1.boxes = [some (slotAfter recUpd loadedStart.activeBox 0 ⟨100, 40⟩ q0),
                    some (slotAfter recUpd loadedStart.activeBox 1 ⟨100, 40⟩ q1)] ∧
        runGeometry recUpd plainHost loadedStart ([⟨90, 30⟩] ++ [⟨100, 40⟩]) = .ok b1 :=
  ⟨rfl, rfl, Or.inl rfl,
    geometry_reaches_every_slot recUpd plainHost loadedStart [] [] [⟨90, 30⟩] ⟨100, 40⟩
      rfl rfl (Or.inl rfl)⟩

/-- C6: on a controller as the set-up shapes it, with stored geometry (w, h), an
edit-file event leaves the controller unchanged, so width and height too; the command
`openEditor` returns yields a geometry-change event with exactly Width = w and
Height = h; and handling that event succeeds and leaves width, height and `lastResize`
equal to (w, h). -/
theorem edit_round_trip {P C : Type} (upd : P → Msg → P × Option C) (host : Host)
    (b : Bubble P) (fp : String) (hr : Ready b) :
    ∃ c b2 ret,
      (Update upd host b (.editFile fp)).out = .ok (b, .cmd c) ∧
      c = (openEditor host b fp : List (Action P) × Cmd C).2 ∧
      Cmd.yield b c = some (.windowSize ⟨b.width, b.height⟩) ∧
      (Update upd host b (.windowSize ⟨b.width, b.height⟩)).out = .ok (b2, ret) ∧
      b2.width = b.width ∧ b2.height = b.height ∧ b2.lastResize = ⟨b.width, b.height⟩ := by
  obtain ⟨o0, o1, hbx, hrd⟩ := hr
  by_cases hl : b.state = .loadedState
  · obtain ⟨ha, h0s, h1s⟩ := hrd hl
    obtain ⟨p0, rfl⟩ := Option.isSome_iff_exists.mp h0s
    obtain ⟨p1, rfl⟩ := Option.isSome_iff_exists.mp h1s
    obtain ⟨ret, hstep⟩ := windowSize_step upd host b ⟨b.width, b.height⟩ p0 p1 hl hbx ha
    refine ⟨.resendSize,
      { b with
          lastResize := ⟨b.width, b.height⟩
          boxes := [some (slotAfter upd b.activeBox 0 ⟨b.width, b.height⟩ p0),
                    some (slotAfter upd b.activeBox 1 ⟨b.width, b.height⟩ p1)] },
      ret, ?_, rfl, rfl, ?_, rfl, rfl, rfl⟩
    · simp [Update, dispatch, openEditor]
    · rw [hstep]
  · refine ⟨.resendSize, { b with lastResize := ⟨b.width, b.height⟩ }, .batch [], ?_, rfl,
      rfl, ?_, rfl, rfl, rfl⟩
    · simp [Update, dispatch, openEditor]
    · simp [Update, dispatch, forwardActive, hl]

theorem edit_round_trip_witness :
    Ready loadedStart ∧
      ∃ c b2 ret,
        (Update recUpd plainHost loadedStart (.editFile "/r/hooks/update")).out
          = .ok (loadedStart, .cmd c) ∧
        c = (openEditor plainHost loadedStart "/r/hooks/update" :
              List (Action (List Msg)) × Cmd Nat).2 ∧
        Cmd.yield loadedStart c
          = some (.windowSize ⟨loadedStart.width, loadedStart.height⟩) ∧
        (Update recUpd plainHost loadedStart
            (.windowSize ⟨loadedStart.width, loadedStart.height⟩)).out = .ok (b2, ret) ∧
        b2.width = loadedStart.width ∧ b2.height = loadedStart.height ∧
        b2.lastResize = ⟨loadedStart.width, loadedStart.height⟩ :=
  ⟨loadedStart_ready, edit_round_trip recUpd plainHost loadedStart "/r/hooks/update"
    loadedStart_ready⟩

/-- C8 fails on the code: with no active pty (`ptyActive = false`) `openEditor` prints
"no pty" and carries on: it starts the editor on a pty and runs both stream copies; the
controller itself is returned unchanged. -/
theorem open_editor_without_pty {P C : Type} (upd : P → Msg → P × Option C) (host : Host)
    (b : Bubble P) (fp : String) :
    let b0 : Bubble P := { b with session := { b.session with ptyActive := false } }
    let r := Update upd host b0 (.editFile fp)
    Action.println "no pty" ∈ r.trace ∧
      (∃ editor env, Action.ptyStart editor fp env ∈ r.trace) ∧
      Action.goCopyIn ∈ r.trace ∧ Action.copyOut ∈ r.trace ∧
      r.out = .ok (b0, .cmd .resendSize) := by
  refine ⟨?_, ⟨if host.EDITOR = "" then "vim" else host.EDITOR,
    ["TERM=" ++ b.session.ptyTerm], ?_⟩, ?_, ?_, ?_⟩ <;>
  simp [Update, dispatch, openEditor]

theorem paneCalls_append {P : Type} (xs ys : List (Action P)) :
    paneCalls (xs ++ ys) = paneCalls xs ++ paneCalls ys := by
  induction xs with
  | nil => rfl
  | cons x xs ih => cases x <;> simp [paneCalls, ih]

/-- The calls of `openEditor` include no pane handler. -/
theorem openEditor_no_pane_call {P C : Type} (host : Host) (b : Bubble P) (fp : String) :
    paneCalls (openEditor host b fp : List (Action P) × Cmd C).1 = [] := by
  unfold openEditor
  by_cases h1 : b.session.ptyActive = true <;> by_cases h2 : host.ptyStartFails = true <;>
    simp [h1, h2, paneCalls]

/-- The type switch invokes no pane handler unless the message is a geometry change, and
it leaves the session state as it is when it falls through. -/
theorem dispatch_nongeometry {P C : Type} (upd : P → Msg → P × Option C) (host : Host)
    (b : Bubble P) (msg : Msg) (hng : msg.isWindowSize = false) :
    paneCalls (dispatch upd host b msg).trace = [] ∧
      ∀ b1 cmds, (dispatch upd host b msg).out = .ok (.next b1 cmds) → b1.state = b.state := by
  cases msg with
  | windowSize m => simp [Msg.isWindowSize] at hng
  | key s =>
    by_cases hq : s = "q" ∨ s = "ctrl+c"
    · simp [dispatch, hq, paneCalls]
    · by_cases ht : s = "tab" ∨ s = "shift+tab"
      · simp only [dispatch, hq, ht, if_true, if_false, paneCalls, true_and]
        intro b1 cmds h
        simp at h
        rw [← h.1]
      · simp only [dispatch, hq, ht, if_false, paneCalls, true_and]
        intro b1 cmds h
        simp at h
        rw [← h.1]
  | err e => simp [dispatch, paneCalls]
  | editFile fp =>
    refine ⟨?_, ?_⟩
    · simpa [dispatch] using openEditor_no_pane_call host b fp
    · simp [dispatch]
  | selected i =>
    cases hidx : index b.repoMenu i with
    | error e => simp [dispatch, hidx, paneCalls]
    | ok entry =>
      cases hasg : assign b.boxes 1 (some entry.bubble) with
      | error e => simp [dispatch, hidx, hasg, paneCalls]
      | ok bs =>
        simp only [dispatch, hidx, hasg, paneCalls, true_and]
        intro b1 cmds h
        simp at h
        rw [← h.1]
  | active i =>
    cases hidx : index b.repoMenu i with
    | error e => simp [dispatch, hidx, paneCalls]
    | ok entry =>
      cases hasg : assign b.boxes 1 (some entry.bubble) with
      | error e => simp [dispatch, hidx, hasg, paneCalls]
      | ok bs =>
        simp only [dispatch, hidx, hasg, paneCalls, true_and]
        intro b1 cmds h
        simp at h
        rw [← h.1]
  | quitMsg =>
    simp only [dispatch, paneCalls, true_and]
    intro b1 cmds h
    simp at h
    rw [← h.1]
  | other t =>
    simp only [dispatch, paneCalls, true_and]
    intro b1 cmds h
    simp at h
    rw [← h.1]

/-- The forwarding to the active box invokes at most the handler of the occupant of the
active slot, and only in the loaded state. -/
theorem forwardActive_calls {P C : Type} (upd : P → Msg → P × Option C) (b : Bubble P)
    (msg : Msg) (cmds : List (Cmd C)) :
    (b.state ≠ .loadedState → paneCalls (forwardActive upd b msg cmds).trace = []) ∧
      (paneCalls (forwardActive upd b msg cmds).trace).length ≤ 1 ∧
      ∀ slot p m, (slot, p, m) ∈ paneCalls (forwardActive upd b msg cmds).trace →
        m = msg ∧ b.state = .loadedState ∧ (slot : Int) = b.activeBox ∧
        index b.boxes b.activeBox = .ok (some p) ∧
        ∃ ret, (forwardActive upd b msg cmds).out =
          .ok ({ b with boxes := b.boxes.set slot (some (upd p msg).1) }, ret) := by
  unfold forwardActive
  by_cases hl : b.state = .loadedState
  · simp only [hl, if_true]
    cases hidx : index b.boxes b.activeBox with
    | error e => simp [paneCalls]
    | ok o =>
      cases o with
      | none => simp [paneCalls]
      | some q =>
        have hnn : 0 ≤ b.activeBox := by
          by_contra hneg
          simp [index, hneg] at hidx
        simp only [paneCalls, List.length_singleton, le_refl, List.mem_singleton,
          Prod.mk.injEq, ne_eq, not_true_eq_false, false_implies, true_and]
        rintro slot p m ⟨rfl, rfl, rfl⟩
        exact ⟨rfl, Int.toNat_of_nonneg hnn, rfl, _, rfl⟩
  · simp [hl, paneCalls]

/-- C4: for every event that is not a geometry-change event and every controller state,
`Update` invokes at most one pane handler; an invoked handler is that of the occupant of
the active slot as the event's own focus or selection change leaves it, it is passed
the event itself and the slot then holds the model it returned; so no other slot's
occupant is passed the event, and outside the loaded state no pane is. -/
theorem only_active_slot_receives {P C : Type} (upd : P → Msg → P × Option C) (host : Host)
    (b : Bubble P) (msg : Msg) (hng : msg.isWindowSize = false) :
    (b.state ≠ .loadedState → paneCalls (Update upd host b msg).trace = []) ∧
      (paneCalls (Update upd host b msg).trace).length ≤ 1 ∧
      ∀ slot p m, (slot, p, m) ∈ paneCalls (Update upd host b msg).trace →
        m = msg ∧ b.state = .loadedState ∧
        ∃ b1 cmds ret, (dispatch upd host b msg).out = .ok (.next b1 cmds) ∧
          (slot : Int) = b1.activeBox ∧ index b1.boxes b1.activeBox = .ok (some p) ∧
          (Update upd host b msg).out =
            .ok ({ b1 with boxes := b1.boxes.set slot (some (upd p msg).1) }, ret) := by
  obtain ⟨hd, hst⟩ := dispatch_nongeometry upd host b msg hng
  cases hout : (dispatch upd host b msg).out with
  | error e => simp [Update, hout, hd]
  | ok fl =>
    cases fl with
    | done b1 ret => simp [Update, hout, hd]
    | next b1 cmds =>
      have hs := hst b1 cmds hout
      obtain ⟨f1, f2, f3⟩ := forwardActive_calls upd b1 msg cmds
      simp only [Update, hout, paneCalls_append, hd, List.nil_append]
      refine ⟨fun h => f1 (hs ▸ h), f2, ?_⟩
      intro slot p m hm
      obtain ⟨g1, g2, g3, g4, ret, g5⟩ := f3 slot p m hm
      exact ⟨g1, hs ▸ g2, b1, cmds, ret, rfl, g3, g4, g5⟩

theorem only_active_slot_receives_witness :
    (Msg.key "tab").isWindowSize = false ∧
      ((loadedStart.state ≠ .loadedState →
          paneCalls (Update recUpd plainHost loadedStart (.key "tab")).trace = []) ∧
        (paneCalls (Update recUpd plainHost loadedStart (.key "tab")).trace).length ≤ 1 ∧
        ∀ slot p m,
          (slot, p, m) ∈ paneCalls (Update recUpd plainHost loadedStart (.key "tab")).trace →
          m = .key "tab" ∧ loadedStart.state = .loadedState ∧
          ∃ b1 cmds ret,
            (dispatch recUpd plainHost loadedStart (.key "tab")).out = .ok (.next b1 cmds) ∧
            (slot : Int) = b1.activeBox ∧ index b1.boxes b1.activeBox = .ok (some p) ∧
            (Update recUpd plainHost loadedStart (.key "tab")).out =
              .ok ({ b1 with boxes := b1.boxes.set slot (some (recUpd p (.key "tab")).1) },
                   ret)) :=
  ⟨rfl, only_active_slot_receives recUpd plainHost loadedStart (.key "tab") rfl⟩

end Tui

end SoftServe

/-! ## Properties of the hook pane -/

namespace SoftServe

namespace Hooks

/-- The tail of `Update` never fails and touches only the text input. -/
theorem forwardInput_ok {T W C : Type} (d : Deps T W C) (w : W) (b : Bubble T) (msg : Msg) :
    ∃ b1 ret, forwardInput d w b msg = .ok (b1, ret, w) ∧ b1.cursor = b.cursor ∧
      b1.state = b.state ∧ b1.hooks = b.hooks := by
  by_cases hst : b.state = .newHookState
  · exact ⟨{ b with textInput := (d.tiUpdate b.textInput msg).1 },
      .batch [.input (d.tiUpdate b.textInput msg).2], by simp [forwardInput, hst], rfl, rfl,
      rfl⟩
  · exact ⟨b, .batch [], by simp [forwardInput, hst], rfl, rfl, rfl⟩

/-- C7 on the code: the up key "k" with the cursor at 0 leaves it at 0, but the down key
"j" with the cursor at the last index (count - 1) of a non-empty hook list moves it to
count, one past the last index, because the guard is `cursor < len(hooks)`. -/
theorem down_key_passes_last_index {T W C : Type} (d : Deps T W C) (w : W) (b : Bubble T)
    (h : String) (hs : List String) :
    (∃ b1 ret, Update d w { b with hooks := h :: hs, cursor := 0 } (.key "k")
        = .ok (b1, ret, w) ∧ b1.cursor = 0) ∧
      (∃ b1 ret,
        Update d w { b with hooks := h :: hs, cursor := ((h :: hs).length : Int) - 1 }
          (.key "j") = .ok (b1, ret, w) ∧
        b1.cursor = (h :: hs).length ∧ b1.cursor ≠ ((h :: hs).length : Int) - 1) := by
  constructor
  · obtain ⟨b1, ret, h1, h2, -, -⟩ :=
      forwardInput_ok d w { b with hooks := h :: hs, cursor := 0 } (.key "k")
    exact ⟨b1, ret, by simpa [Update] using h1, h2⟩
  · obtain ⟨b1, ret, h1, h2, -, -⟩ :=
      forwardInput_ok d w
        { b with hooks := h :: hs, cursor := ((h :: hs).length : Int) - 1 + 1 } (.key "j")
    refine ⟨b1, ret, ?_, ?_, ?_⟩
    · simpa [Update] using h1
    · rw [h2]; simp
    · rw [h2]; simp

/-- C9 fails on the code: from `NewBubble` over a directory with one hook, the keys "j"
then "enter" make `Update` index `hooks` at 1, out of range; and from `NewBubble` over
an empty directory "enter" alone indexes the empty list at 0. In both runs the pane is in
the listing state and no edit-file request is returned. -/
theorem enter_indexes_out_of_range :
    oneHook.state = .listState ∧ oneHook.hooks = ["pre-receive"] ∧
      run recDeps ["pre-receive"] oneHook [.key "j"]
        = .ok ({ oneHook with cursor := 1 }, ["pre-receive"]) ∧
      run recDeps ["pre-receive"] oneHook [.key "j", .key "enter"]
        = .error .indexOutOfRange ∧
      noHook.state = .listState ∧ noHook.hooks = [] ∧
      Update recDeps [] noHook (.key "enter") = .error .indexOutOfRange := by
  decide

/-- C10 fails on the code: in the creating state the key "n" returns before the text
input is given the message, whatever the text input and file system are, and the keys
"j" and "k" move the list cursor. In the runs below the pane built by `NewBubble` is put
in the creating state by a first "n"; a second "n" reaches no text input (it has recorded
no message), and "j" moves the cursor from 0 to 1. -/
theorem creating_keys_diverge :
    (∀ (T W C : Type) (d : Deps T W C) (w : W) (b : Bubble T),
      Update d w { b with state := .newHookState } (.key "n") =
        .ok ({ b with state := .newHookState,
                      textInput := d.tiBlink (d.tiFocus b.textInput) }, .nil, w)) ∧
      run recDeps ["pre-receive"] oneHook [.key "n"]
        = .ok ({ oneHook with state := .newHookState }, ["pre-receive"]) ∧
      run recDeps ["pre-receive"] oneHook [.key "n", .key "n"]
        = .ok ({ oneHook with state := .newHookState, textInput := [] }, ["pre-receive"]) ∧
      run recDeps ["pre-receive"] oneHook [.key "n", .key "j"]
        = .ok ({ oneHook with state := .newHookState, cursor := 1, textInput := [.key "j"] },
               ["pre-receive"]) := by
  refine ⟨?_, by decide, by decide, by decide⟩
  intro T W C d w b
  simp [Update]

/-- In the creating state a key other than "j", "k", "n" and "enter" is given to the text
input and changes neither the cursor nor the state. -/
theorem creating_other_key_forwarded {T W C : Type} (d : Deps T W C) (w : W) (b : Bubble T)
    (s : String) (hst : b.state = .newHookState) (hj : s ≠ "j") (hk : s ≠ "k")
    (hn : s ≠ "n") (he : s ≠ "enter") :
    Update d w b (.key s) =
      .ok ({ b with textInput := (d.tiUpdate b.textInput (.key s)).1 },
           .batch [.input (d.tiUpdate b.textInput (.key s)).2], w) := by
  simp [Update, forwardInput, hst, hj, hk, hn, he]

end Hooks

end SoftServe
